import Mathlib

/-!
# ObjectDetector (react-object-detection, `components/objectDetector/index.jsx`)

A shallow embedding of the component's own logic: the coordinate normaliser
`normalizePredictions`, the asynchronous chain `onSelectImage` /
`detectObjectsOnImage`, the hook state of the component and what it renders.

Numbers: finite JS numbers are modelled as rationals (`ℚ`; every finite double
is one).  The arithmetic of `normalizePredictions` is taken exactly; a division
whose divisor is zero (which yields `Infinity` or `NaN` in JS) lies outside the
model, so statements about computed coordinates assume non-zero source
dimensions.  The product `score * 100` of line 204 is rounded to binary64
(`mulDouble`), because the digit the label shows depends on that rounding.
-/

namespace ObjectDetector

/-! ## Data model -/

/-- Failures of a JS evaluation in the modelled code. -/
inductive JsError where
  /-- Property read on `null` or `undefined`. -/
  | typeError
  /-- Rejection of a promise of an external collaborator. -/
  | rejected (reason : String)
  deriving DecidableEq, Repr

/-- The `bbox` array of a detection, `[x, y, width, height]`: `c0 .. c3` are the
entries at indices 0 .. 3. -/
structure BBox where
  c0 : ℚ
  c1 : ℚ
  c2 : ℚ
  c3 : ℚ
  deriving DecidableEq

/-- One detection as produced by the detector: `{ bbox, class, score }`. -/
structure Detection where
  bbox : BBox
  class_ : String
  score : ℚ
  deriving DecidableEq

/-- An object with `width` and `height` (the `imgSize` literal of `onload`, and
the part of an image element that `normalizePredictions` reads). -/
structure Size where
  width : ℚ
  height : ℚ
  deriving DecidableEq

/-- A React ref object `{ current }`; `current` is `none` while no element is
attached (`undefined` initially, `null` after unmounting). -/
structure Ref where
  current : Option Size
  deriving DecidableEq

/-! ## `normalizePredictions` (lines 120-139) -/

/-- The callback of `predictions.map` (lines 122-138).  `imgSize` is the truthy
object of the guard; reading `imageRef.current.width` on an absent element is a
`TypeError`. -/
def normalizeOne (imageRef : Ref) (imgSize : Size) (prediction : Detection) :
    Except JsError Detection :=
  let bbox := prediction.bbox
  let oldX := bbox.c0
  let oldY := bbox.c1
  let oldWidth := bbox.c2
  let oldHeight := bbox.c3
  match imageRef.current with
  | none => .error .typeError
  | some current =>
    let imgWidth := current.width
    let imgHeight := current.height
    let x := (oldX * imgWidth) / imgSize.width
    let y := (oldY * imgHeight) / imgSize.height
    let width := (oldWidth * imgWidth) / imgSize.width
    let height := (oldHeight * imgHeight) / imgSize.height
    .ok { prediction with bbox := ⟨x, y, width, height⟩ }

/-- The function `normalizePredictions(predictions, imgSize)`; `imageRef` is the
ref object of the enclosing component.  `none` stands for a `null`/`undefined`
argument.  The third disjunct of the guard, `!imageRef`, tests the ref object
itself, which `useRef()` always creates, so it is never true. -/
def normalizePredictions (imageRef : Ref) (predictions : Option (List Detection))
    (imgSize : Option Size) : Except JsError (List Detection) :=
  match predictions, imgSize with
  | none, _ => .ok []
  | some ps, none => .ok ps
  | some ps, some sz => ps.mapM (normalizeOne imageRef sz)

/-- The box of a detection rescaled by the ratios `r.width / s.width` (for entries
0 and 2) and `r.height / s.height` (for entries 1 and 3). -/
def scaleBBox (r s : Size) (b : BBox) : BBox :=
  ⟨b.c0 * (r.width / s.width), b.c1 * (r.height / s.height),
   b.c2 * (r.width / s.width), b.c3 * (r.height / s.height)⟩

/-! ## Hook state of `ObjectDetector` (lines 109-112) -/

/-- The four `useState` cells of the component. -/
structure ViewState where
  /-- Data URL of the selected image, `null` before the first selection. -/
  imgData : Option String
  /-- The stored (normalised) detections. -/
  predictions : List Detection
  isLoading : Bool
  objectNames : List String
  deriving DecidableEq

/-- The state of the first render: `useState(null)`, `useState([])`,
`useState(false)`, `useState([])`. -/
def initialState : ViewState := ⟨none, [], false, []⟩

def setImgData (v : Option String) (s : ViewState) : ViewState := { s with imgData := v }

def setPredictions (v : List Detection) (s : ViewState) : ViewState :=
  { s with predictions := v }

def setLoading (v : Bool) (s : ViewState) : ViewState := { s with isLoading := v }

def setObjectNames (v : List String) (s : ViewState) : ViewState :=
  { s with objectNames := v }

/-! ## `Number.prototype.toFixed` and the marker label (lines 72-74) -/

/-- The built-in `x.toFixed(f)` on a finite number, following ECMA-262: the sign
is split off, `n` is the integer for which `n / 10^f - x` is closest to zero (the
larger one on a tie), its decimal digits are left-padded with zeros to `f + 1`
places and the point is put before the last `f` digits.  `none` outside the
modelled range (`f > 100` is a `RangeError`, `|x| ≥ 10^21` switches to
exponent notation). -/
def toFixed (x : ℚ) (f : ℕ) : Option String :=
  if 100 < f ∨ (10 : ℚ) ^ 21 ≤ |x| then none
  else
    let s := if x < 0 then "-" else ""
    let x := |x|
    let n : ℕ := ⌊x * 10 ^ f + 1 / 2⌋₊
    let m := Nat.toDigits 10 n
    let m :=
      if f ≠ 0 then
        let m := if m.length ≤ f then List.replicate (f + 1 - m.length) '0' ++ m else m
        let k := m.length
        m.take (k - f) ++ '.' :: m.drop (k - f)
      else m
    some (s ++ String.mk m)

/-- The integer nearest to `y`, the even one on a tie. -/
def roundHalfEven (y : ℚ) : ℤ :=
  let f := ⌊y⌋
  let r := y - f
  if r < 1 / 2 then f
  else if 1 / 2 < r then f + 1
  else if f % 2 = 0 then f else f + 1

/-- IEEE 754 binary64 rounding (to nearest, ties to even) of an exact value: the
value is rounded to a multiple of its unit in the last place `2 ^ (e - 52)`,
where `e` is its binary exponent, at least -1022 (below that the numbers are
subnormal with the fixed unit `2 ^ (-1074)`).  Overflow to `Infinity`
(`|x| ≥ 2 ^ 1024`) is outside the model. -/
def roundDouble (x : ℚ) : ℚ :=
  if x = 0 then 0
  else
    let e := max (Int.log 2 |x|) (-1022)
    let q : ℚ := 2 ^ (e - 52)
    roundHalfEven (x / q) * q

/-- The JS product `x * y` of two doubles: the exact product, rounded. -/
def mulDouble (x y : ℚ) : ℚ := roundDouble (x * y)

/-- Props handed to one `TargetBox` (lines 197-205). -/
structure TargetBoxProps where
  x : ℚ
  y : ℚ
  width : ℚ
  height : ℚ
  classType : String
  score : ℚ
  deriving DecidableEq

/-- The text of the `::before` label of a `TargetBox` (line 73): the template
string made of `classType`, a space, `score.toFixed(1)` and a percent sign. -/
def TargetBox.content (p : TargetBoxProps) : Option String :=
  (toFixed p.score 1).map fun t => p.classType ++ " " ++ t ++ "%"

/-! ## Rendering (lines 181-215) -/

/-- The element created for one stored detection in `predictions.map`
(lines 196-206). -/
def targetBox (prediction : Detection) : TargetBoxProps :=
  { x := prediction.bbox.c0
    y := prediction.bbox.c1
    width := prediction.bbox.c2
    height := prediction.bbox.c3
    classType := prediction.class_
    score := mulDouble prediction.score 100 }

/-- JS truthiness of the `imgData` cell: `null` and the empty string are falsy. -/
def truthy : Option String → Bool
  | none => false
  | some d => d != ""

/-- Line 114; the cell always holds an array, so `!predictions` is false. -/
def isEmptyPredictions (s : ViewState) : Bool := s.predictions.length == 0

/-- What one render shows. -/
structure View where
  buttonText : String
  spinner : Bool
  /-- The `DetectorContainer`, when rendered: the image source and the markers. -/
  detectorContainer : Option (String × List TargetBoxProps)
  /-- The text of `ObjectNamesLabel`, when rendered. -/
  objectNamesLabel : Option String
  deriving DecidableEq

def render (s : ViewState) : View :=
  { buttonText := if s.isLoading then "Recognizing..." else "Select Image"
    spinner := s.isLoading
    detectorContainer :=
      if truthy s.imgData then
        some (s.imgData.getD "",
          if !isEmptyPredictions s then s.predictions.map targetBox else [])
      else none
    objectNamesLabel :=
      if s.objectNames.length > 0 then
        some ("Detected Objects: " ++ ", ".intercalate s.objectNames)
      else none }

/-- The `TargetBox` markers of a render, in order. -/
def View.markers (v : View) : List TargetBoxProps :=
  match v.detectorContainer with
  | some (_, ms) => ms
  | none => []

/-- The ref after a committed render: `TargetImg` carries `ref={imageRef}` inside
the `imgData && (...)` branch, so an element is attached exactly when `imgData`
is truthy; `layout` is the rendered size the browser reports for it. -/
def attachedRef (s : ViewState) (layout : Size) : Ref :=
  ⟨if truthy s.imgData then some layout else none⟩

/-! ## The external detector and `detectObjectsOnImage` (lines 141-149) -/

/-- The detached `img` element of `onSelectImage` once decoded: its source and
natural dimensions. -/
structure ImageElement where
  src : String
  width : ℚ
  height : ℚ
  deriving DecidableEq

/-- One invocation `model.detect(image, maxNumBoxes)`. -/
structure DetectCall where
  image : ImageElement
  maxNumBoxes : ℕ
  deriving DecidableEq

/-- A computation that may fail and that records the detector invocations it
makes (appended to the log it is given). -/
def Eff (α : Type) : Type := List DetectCall → Except JsError α × List DetectCall

def Eff.pure {α : Type} (a : α) : Eff α := fun log => (.ok a, log)

def Eff.bind {α β : Type} (m : Eff α) (k : α → Eff β) : Eff β := fun log =>
  match m log with
  | (.ok a, log') => k a log'
  | (.error e, log') => (.error e, log')

instance : Monad Eff where
  pure := Eff.pure
  bind := Eff.bind

/-- A synchronous evaluation that may throw, inside an asynchronous function. -/
def Eff.ofExcept {α : Type} (r : Except JsError α) : Eff α := fun log => (r, log)

/-- A loaded model: what `detect` settles with for each argument pair. -/
structure Model where
  detectResult : ImageElement → ℕ → Except JsError (List Detection)

/-- The module `cocoSsd`: what `load({})` settles with. -/
structure CocoSsd where
  loadResult : Except JsError Model

/-- The call `await cocoSsd.load({})`. -/
def CocoSsd.load (cocoSsd : CocoSsd) : Eff Model := fun log => (cocoSsd.loadResult, log)

/-- The call `await model.detect(image, maxNumBoxes)`; the invocation is recorded
whether or not it succeeds. -/
def Model.detect (model : Model) (image : ImageElement) (maxNumBoxes : ℕ) :
    Eff (List Detection) := fun log =>
  (model.detectResult image maxNumBoxes, log ++ [⟨image, maxNumBoxes⟩])

/-- The function `detectObjectsOnImage(imageElement, imgSize)`, run from the hook
state `s`; the result is the state after its two setter calls.  (`console.log`
does not touch the state.) -/
def detectObjectsOnImage (cocoSsd : CocoSsd) (imageRef : Ref) (imageElement : ImageElement)
    (imgSize : Option Size) (s : ViewState) : Eff ViewState := do
  let model ← cocoSsd.load
  let predictions ← model.detect imageElement 6
  let normalizedPredictions ← Eff.ofExcept (normalizePredictions imageRef (some predictions) imgSize)
  let s := setPredictions normalizedPredictions s
  let names := predictions.map fun prediction => prediction.class_
  let s := setObjectNames names s
  pure s

/-! ## `onSelectImage` (lines 160-179) -/

/-- The handler `imageElement.onload` (lines 171-178). -/
def onload (cocoSsd : CocoSsd) (imageRef : Ref) (imageElement : ImageElement)
    (s : ViewState) : Eff ViewState := do
  let imgSize : Size := { width := imageElement.width, height := imageElement.height }
  let s ← detectObjectsOnImage cocoSsd imageRef imageElement (some imgSize) s
  pure (setLoading false s)

/-- The synchronous start of `onSelectImage`, up to `await readImage(file)`
(lines 161-165). -/
def onSelectImage_start (s : ViewState) : ViewState :=
  setLoading true (setPredictions [] s)

/-- The part of `onSelectImage` resumed when `readImage` resolves with `imgData`
(lines 166-178): the state after `setImgData`, and the detached element whose
`onload` handler is now installed. -/
def onSelectImage_afterRead (imgData : String) (s : ViewState) : ViewState :=
  setImgData (some imgData) s

/-! ## The view-state machine -/

/-- The asynchronous events that drive the component; `sel` numbers the
selection (the run of `onSelectImage`) an event belongs to. -/
inductive Event where
  /-- The file input changed: `onSelectImage` runs up to its first `await`. -/
  | selectionStarted (sel : ℕ)
  /-- The promise of `readImage` resolved with the data URL. -/
  | fileReadCompleted (sel : ℕ) (imgData : String)
  /-- The promise of `readImage` rejected (`fileReader.onerror`). -/
  | fileReadFailed (sel : ℕ)
  /-- The `load` event of the detached element fired: `onload` starts and
  suspends at `await cocoSsd.load({})`. -/
  | imageDecoded (sel : ℕ)
  /-- Loading the model and `model.detect` both resolved, the latter with
  `predictions`; `layout` is the rendered size of the displayed image. -/
  | inferenceCompleted (sel : ℕ) (imageElement : ImageElement)
      (predictions : List Detection) (layout : Size)
  /-- Loading the model or `model.detect` rejected. -/
  | inferenceFailed (sel : ℕ)
  deriving DecidableEq

/-- The module `cocoSsd` in a run where loading and detection both resolve, the
latter with `predictions`. -/
def resolved (predictions : List Detection) : CocoSsd :=
  ⟨.ok ⟨fun _ _ => .ok predictions⟩⟩

/-- One transition.  A completion runs the rest of `onload` (its setters only
write, and the continuation after `await detectObjectsOnImage` is a microtask, so
no other event comes in between); if that throws, no setter has been reached and
the state is unchanged.  The rejected chains
(`fileReadFailed`, `inferenceFailed`) and the suspension at `imageDecoded` reach
no setter either. -/
def step (s : ViewState) : Event → ViewState
  | .selectionStarted _ => onSelectImage_start s
  | .fileReadCompleted _ imgData => onSelectImage_afterRead imgData s
  | .fileReadFailed _ => s
  | .imageDecoded _ => s
  | .inferenceCompleted _ imageElement predictions layout =>
    match (onload (resolved predictions) (attachedRef s layout) imageElement s []).1 with
    | .ok s' => s'
    | .error _ => s
  | .inferenceFailed _ => s

/-- The state after a sequence of events. -/
def run (s : ViewState) (es : List Event) : ViewState := es.foldl step s

def Event.isInferenceCompleted : Event → Bool
  | .inferenceCompleted _ _ _ _ => true
  | _ => false

/-- Where the asynchronous chain of one selection stands. -/
inductive Phase where
  | reading
  | decoding
  | inferring
  | settled
  deriving DecidableEq

/-- The phase of selection `sel` in a table of (selection, phase) entries, the
latest entry first. -/
def phaseOf (table : List (ℕ × Phase)) (sel : ℕ) : Option Phase :=
  (table.find? fun entry => entry.1 == sel).map fun entry => entry.2

/-- The table after an event, if the event can occur now: every chain runs
read, decode, inference in this order and each selection starts once. -/
def advance (table : List (ℕ × Phase)) : Event → Option (List (ℕ × Phase))
  | .selectionStarted sel =>
    if phaseOf table sel = none then some ((sel, .reading) :: table) else none
  | .fileReadCompleted sel _ =>
    if phaseOf table sel = some .reading then some ((sel, .decoding) :: table) else none
  | .fileReadFailed sel =>
    if phaseOf table sel = some .reading then some ((sel, .settled) :: table) else none
  | .imageDecoded sel =>
    if phaseOf table sel = some .decoding then some ((sel, .inferring) :: table) else none
  | .inferenceCompleted sel _ _ _ =>
    if phaseOf table sel = some .inferring then some ((sel, .settled) :: table) else none
  | .inferenceFailed sel =>
    if phaseOf table sel = some .inferring then some ((sel, .settled) :: table) else none

/-- A sequence of events is an interleaving of well-ordered selection chains. -/
def orderly (table : List (ℕ × Phase)) : List Event → Bool
  | [] => true
  | e :: es =>
    match advance table e with
    | none => false
    | some table' => orderly table' es

/-! ## Lemmas on `normalizePredictions` -/

theorem normalizeOne_attached (r sz : Size) (p : Detection) :
    normalizeOne ⟨some r⟩ sz p = .ok { p with bbox := scaleBBox r sz p.bbox } := by
  simp [normalizeOne, scaleBBox, mul_div_assoc]

theorem mapM_normalizeOne_attached (r sz : Size) (ps : List Detection) :
    ps.mapM (normalizeOne ⟨some r⟩ sz)
      = .ok (ps.map fun p => { p with bbox := scaleBBox r sz p.bbox }) := by
  induction ps with
  | nil => rfl
  | cons p ps ih =>
    simp only [List.mapM_cons, ih, normalizeOne_attached, List.map_cons]
    rfl

/-- Claim C1: with source size and rendered element present and non-zero source
dimensions, every detection's box (x, y, w, h) becomes
(x·Rw/Sw, y·Rh/Sh, w·Rw/Sw, h·Rh/Sh); all other fields are kept. -/
theorem normalizePredictions_scales (ps : List Detection) (r s : Size)
    (hw : s.width ≠ 0) (hh : s.height ≠ 0) :
    normalizePredictions ⟨some r⟩ (some ps) (some s)
      = .ok (ps.map fun p => { p with bbox :=
          ⟨p.bbox.c0 * r.width / s.width, p.bbox.c1 * r.height / s.height,
           p.bbox.c2 * r.width / s.width, p.bbox.c3 * r.height / s.height⟩ })
    ∧ ∀ p ∈ ps, ∃ q, normalizeOne ⟨some r⟩ s p = .ok q
        ∧ q.bbox.c0 * s.width = p.bbox.c0 * r.width
        ∧ q.bbox.c1 * s.height = p.bbox.c1 * r.height
        ∧ q.bbox.c2 * s.width = p.bbox.c2 * r.width
        ∧ q.bbox.c3 * s.height = p.bbox.c3 * r.height := by
  refine ⟨?_, ?_⟩
  · simp only [normalizePredictions, mapM_normalizeOne_attached, scaleBBox, mul_div_assoc]
  · intro p _
    refine ⟨_, normalizeOne_attached r s p, ?_, ?_, ?_, ?_⟩ <;>
      simp only [scaleBBox] <;> field_simp

/-! ## Lemmas on the asynchronous chain -/

theorem detectObjectsOnImage_eval (cocoSsd : CocoSsd) (imageRef : Ref)
    (imageElement : ImageElement) (imgSize : Option Size) (s : ViewState)
    (log : List DetectCall) (model : Model) (preds : List Detection)
    (hl : cocoSsd.loadResult = .ok model)
    (hd : model.detectResult imageElement 6 = .ok preds) :
    detectObjectsOnImage cocoSsd imageRef imageElement imgSize s log
      = ((normalizePredictions imageRef (some preds) imgSize).map fun np =>
            setObjectNames (preds.map fun p => p.class_) (setPredictions np s),
          log ++ [⟨imageElement, 6⟩]) := by
  simp only [detectObjectsOnImage, bind, Eff.bind, CocoSsd.load, Model.detect, hl, hd,
    Eff.ofExcept]
  cases normalizePredictions imageRef (some preds) imgSize <;> rfl

theorem detectObjectsOnImage_load_rejected (cocoSsd : CocoSsd) (imageRef : Ref)
    (imageElement : ImageElement) (imgSize : Option Size) (s : ViewState)
    (log : List DetectCall) (e : JsError) (hl : cocoSsd.loadResult = .error e) :
    detectObjectsOnImage cocoSsd imageRef imageElement imgSize s log = (.error e, log) := by
  simp only [detectObjectsOnImage, bind, Eff.bind, CocoSsd.load, hl]

theorem detectObjectsOnImage_detect_rejected (cocoSsd : CocoSsd) (imageRef : Ref)
    (imageElement : ImageElement) (imgSize : Option Size) (s : ViewState)
    (log : List DetectCall) (model : Model) (e : JsError)
    (hl : cocoSsd.loadResult = .ok model)
    (hd : model.detectResult imageElement 6 = .error e) :
    detectObjectsOnImage cocoSsd imageRef imageElement imgSize s log
      = (.error e, log ++ [⟨imageElement, 6⟩]) := by
  simp only [detectObjectsOnImage, bind, Eff.bind, CocoSsd.load, Model.detect, hl, hd]

theorem onload_eval (cocoSsd : CocoSsd) (imageRef : Ref) (imageElement : ImageElement)
    (s : ViewState) (log : List DetectCall) :
    onload cocoSsd imageRef imageElement s log
      = ((detectObjectsOnImage cocoSsd imageRef imageElement
            (some ⟨imageElement.width, imageElement.height⟩) s log).1.map (setLoading false),
         (detectObjectsOnImage cocoSsd imageRef imageElement
            (some ⟨imageElement.width, imageElement.height⟩) s log).2) := by
  simp only [onload, bind, Eff.bind]
  rcases h : detectObjectsOnImage cocoSsd imageRef imageElement
      (some ⟨imageElement.width, imageElement.height⟩) s log with ⟨r, l⟩
  cases r <;> rfl

/-- A rejected `cocoSsd.load` ends `onload` before any setter. -/
theorem onload_load_rejected (cocoSsd : CocoSsd) (imageRef : Ref) (imageElement : ImageElement)
    (s : ViewState) (log : List DetectCall) (e : JsError)
    (hl : cocoSsd.loadResult = .error e) :
    (onload cocoSsd imageRef imageElement s log).1 = .error e := by
  rw [onload_eval, detectObjectsOnImage_load_rejected _ _ _ _ _ _ e hl]
  rfl

/-- A rejected `model.detect` ends `onload` before any setter. -/
theorem onload_detect_rejected (cocoSsd : CocoSsd) (imageRef : Ref)
    (imageElement : ImageElement) (s : ViewState) (log : List DetectCall) (model : Model)
    (e : JsError) (hl : cocoSsd.loadResult = .ok model)
    (hd : model.detectResult imageElement 6 = .error e) :
    (onload cocoSsd imageRef imageElement s log).1 = .error e := by
  rw [onload_eval, detectObjectsOnImage_detect_rejected _ _ _ _ _ _ model e hl hd]
  rfl

/-- The transition of a completion, spelled out. -/
theorem step_inferenceCompleted (s : ViewState) (sel : ℕ) (imageElement : ImageElement)
    (preds : List Detection) (layout : Size) :
    step s (.inferenceCompleted sel imageElement preds layout)
      = match normalizePredictions (attachedRef s layout) (some preds)
            (some ⟨imageElement.width, imageElement.height⟩) with
        | .ok np => setLoading false
            (setObjectNames (preds.map fun p => p.class_) (setPredictions np s))
        | .error _ => s := by
  simp only [step, onload_eval]
  rw [detectObjectsOnImage_eval (resolved preds) _ _ _ _ _ ⟨fun _ _ => .ok preds⟩ preds rfl rfl]
  cases normalizePredictions (attachedRef s layout) (some preds)
    (some ⟨imageElement.width, imageElement.height⟩) <;> rfl

/-- Only a completion changes `isLoading` to false. -/
theorem step_isLoading (s : ViewState) (e : Event) (h : e.isInferenceCompleted = false)
    (hs : s.isLoading = true) : (step s e).isLoading = true := by
  cases e <;> first | exact hs | rfl | (simp [Event.isInferenceCompleted] at h)

/-- Only a completion can make `predictions` non-empty. -/
theorem step_predictions (s : ViewState) (e : Event) (h : e.isInferenceCompleted = false)
    (hs : s.predictions = []) : (step s e).predictions = [] := by
  cases e <;> first | exact hs | rfl | (simp [Event.isInferenceCompleted] at h)

theorem run_isLoading (es : List Event) :
    ∀ s : ViewState, (∀ e ∈ es, e.isInferenceCompleted = false) → s.isLoading = true →
      (run s es).isLoading = true := by
  induction es with
  | nil => intro s _ hs; exact hs
  | cons e es ih =>
    intro s h hs
    exact ih (step s e) (fun e' he' => h e' (List.mem_cons_of_mem _ he'))
      (step_isLoading s e (h e (List.mem_cons_self _ _)) hs)

theorem run_predictions (es : List Event) :
    ∀ s : ViewState, (∀ e ∈ es, e.isInferenceCompleted = false) → s.predictions = [] →
      (run s es).predictions = [] := by
  induction es with
  | nil => intro s _ hs; exact hs
  | cons e es ih =>
    intro s h hs
    exact ih (step s e) (fun e' he' => h e' (List.mem_cons_of_mem _ he'))
      (step_predictions s e (h e (List.mem_cons_self _ _)) hs)

/-- With both arguments present, a successful normalisation keeps every `class`
and `score`, in order. -/
theorem normalizePredictions_keeps (imageRef : Ref) (ps np : List Detection) (sz : Size)
    (h : normalizePredictions imageRef (some ps) (some sz) = .ok np) :
    np.map (fun p => (p.class_, p.score)) = ps.map (fun p => (p.class_, p.score)) := by
  rcases imageRef with ⟨_ | r⟩
  · cases ps with
    | nil =>
      have : np = [] := by
        simp only [normalizePredictions] at h
        exact (Except.ok.inj h).symm
      rw [this]
    | cons p ps =>
      simp only [normalizePredictions, List.mapM_cons, normalizeOne] at h
      cases h
  · simp only [normalizePredictions, mapM_normalizeOne_attached] at h
    rw [← Except.ok.inj h, List.map_map]
    rfl

/-! ## Decimal digits and `toFixed` -/

theorem toDigitsCore_acc (b : ℕ) : ∀ (f n : ℕ) (ds : List Char),
    Nat.toDigitsCore b f n ds = Nat.toDigitsCore b f n [] ++ ds := by
  intro f
  induction f with
  | zero => intro n ds; simp [Nat.toDigitsCore]
  | succ f ih =>
    intro n ds
    simp only [Nat.toDigitsCore]
    split
    · simp
    · rw [ih (n / b) (Nat.digitChar (n % b) :: ds), ih (n / b) [Nat.digitChar (n % b)]]
      simp

theorem toDigitsCore_fuel (b : ℕ) (hb : 2 ≤ b) : ∀ (f g n : ℕ), n < f → n < g →
    Nat.toDigitsCore b f n [] = Nat.toDigitsCore b g n [] := by
  intro f
  induction f with
  | zero => intro g n h; omega
  | succ f ih =>
    intro g n hf hg
    cases g with
    | zero => omega
    | succ g =>
      simp only [Nat.toDigitsCore]
      split
      · rfl
      · rename_i hne
        have hpos : 0 < n := by
          rcases Nat.eq_zero_or_pos n with h | h
          · subst h; simp at hne
          · exact h
        have hlt : n / b < n := Nat.div_lt_self hpos hb
        rw [toDigitsCore_acc b f, toDigitsCore_acc b g, ih g (n / b) (by omega) (by omega)]

theorem toDigits_ten (n : ℕ) :
    Nat.toDigits 10 n = if n / 10 = 0 then [Nat.digitChar (n % 10)]
      else Nat.toDigits 10 (n / 10) ++ [Nat.digitChar (n % 10)] := by
  have hcore : Nat.toDigits 10 n = if n / 10 = 0 then [Nat.digitChar (n % 10)]
      else Nat.toDigitsCore 10 n (n / 10) [Nat.digitChar (n % 10)] := by
    simp only [Nat.toDigits, Nat.toDigitsCore]
  rw [hcore]
  split
  · rfl
  · rename_i hne
    have hpos : 0 < n := by
      rcases Nat.eq_zero_or_pos n with h | h
      · subst h; simp at hne
      · exact h
    have hlt : n / 10 < n := Nat.div_lt_self hpos (by norm_num)
    rw [toDigitsCore_acc 10 n, toDigitsCore_fuel 10 (by norm_num) n (n / 10 + 1) (n / 10) hlt
      (by omega)]
    rfl

theorem toDigits_ten_length_pos (n : ℕ) : 1 ≤ (Nat.toDigits 10 n).length := by
  rw [toDigits_ten]
  split <;> simp

/-- One fraction digit, non-negative argument: the digits of `n / 10`, the point,
and the digit `n % 10`, where `n` is the argument times ten, rounded. -/
theorem toFixed_one (x : ℚ) (h0 : 0 ≤ x) (h1 : x < 10 ^ 21) :
    toFixed x 1 = some (String.mk (Nat.toDigits 10 (⌊x * 10 ^ 1 + 1 / 2⌋₊ / 10)
        ++ ['.', Nat.digitChar (⌊x * 10 ^ 1 + 1 / 2⌋₊ % 10)])) := by
  have habs : |x| = x := abs_of_nonneg h0
  have hc : ¬ (100 < 1 ∨ (10 : ℚ) ^ 21 ≤ |x|) := by
    rw [habs]
    simp [h1]
  have hneg : ¬ x < 0 := not_lt.mpr h0
  simp only [toFixed, hc, if_false, hneg, habs]
  generalize ⌊x * 10 ^ 1 + 1 / 2⌋₊ = n
  have hlen := toDigits_ten_length_pos (n / 10)
  rw [toDigits_ten n]
  by_cases hn : n / 10 = 0
  · have hz : Nat.toDigits 10 0 = ['0'] := rfl
    simp [hn, hz, h1]
  · generalize Nat.toDigits 10 (n / 10) = l at hlen
    have hl : l ≠ [] := by
      intro h
      rw [h] at hlen
      simp at hlen
    simp [hn, hl, h1]

/-! ## Rounding to binary64 -/

theorem roundHalfEven_abs_sub_le (y : ℚ) : |(roundHalfEven y : ℚ) - y| ≤ 1 / 2 := by
  have h1 := Int.floor_le y
  have h2 := Int.lt_floor_add_one y
  unfold roundHalfEven
  simp only
  rw [abs_le]
  split_ifs with a b c
  · constructor <;> linarith
  · push_cast; constructor <;> linarith
  · constructor <;> linarith
  · push_cast; constructor <;> linarith

theorem roundHalfEven_nonneg (y : ℚ) (h : 0 ≤ y) : 0 ≤ roundHalfEven y := by
  have h1 : 0 ≤ ⌊y⌋ := Int.floor_nonneg.mpr h
  unfold roundHalfEven
  simp only
  split_ifs <;> omega

theorem roundHalfEven_eq (y : ℚ) (M : ℤ) (h : |y - M| < 1 / 2) : roundHalfEven y = M := by
  have h1 := Int.floor_le y
  have h2 := Int.lt_floor_add_one y
  rw [abs_lt] at h
  obtain ⟨h3, h4⟩ := h
  unfold roundHalfEven
  simp only
  split_ifs with a b c
  · have u1 : (M : ℚ) < ⌊y⌋ + 1 := by linarith
    have u2 : ((⌊y⌋ : ℤ) : ℚ) < M + 1 := by linarith
    have v1 : M < ⌊y⌋ + 1 := by exact_mod_cast u1
    have v2 : ⌊y⌋ < M + 1 := by exact_mod_cast u2
    omega
  · have u1 : (M : ℚ) < ⌊y⌋ + 2 := by linarith
    have u2 : ((⌊y⌋ : ℤ) : ℚ) < M := by linarith
    have v1 : M < ⌊y⌋ + 2 := by exact_mod_cast u1
    have v2 : ⌊y⌋ < M := by exact_mod_cast u2
    omega
  · exfalso
    have hr : y - ⌊y⌋ = 1 / 2 := le_antisymm (not_lt.mp b) (not_lt.mp a)
    have u1 : (M : ℚ) < ⌊y⌋ + 1 := by linarith
    have u2 : ((⌊y⌋ : ℤ) : ℚ) < M := by linarith
    have v1 : M < ⌊y⌋ + 1 := by exact_mod_cast u1
    have v2 : ⌊y⌋ < M := by exact_mod_cast u2
    omega
  · exfalso
    have hr : y - ⌊y⌋ = 1 / 2 := le_antisymm (not_lt.mp b) (not_lt.mp a)
    have u1 : (M : ℚ) < ⌊y⌋ + 1 := by linarith
    have u2 : ((⌊y⌋ : ℤ) : ℚ) < M := by linarith
    have v1 : M < ⌊y⌋ + 1 := by exact_mod_cast u1
    have v2 : ⌊y⌋ < M := by exact_mod_cast u2
    omega

theorem log_two_eq (x : ℚ) (e : ℤ) (h0 : 0 < x) (h1 : (2 : ℚ) ^ e ≤ x) (h2 : x < 2 ^ (e + 1)) :
    Int.log 2 x = e := by
  have a : e ≤ Int.log 2 x := (Int.zpow_le_iff_le_log (by norm_num) h0).mp (by exact_mod_cast h1)
  have b : Int.log 2 x < e + 1 := (Int.lt_zpow_iff_log_lt (by norm_num) h0).mp (by exact_mod_cast h2)
  omega

theorem roundDouble_nonneg (x : ℚ) (h : 0 ≤ x) : 0 ≤ roundDouble x := by
  unfold roundDouble
  split_ifs with hx
  · exact le_refl _
  · simp only
    have hq : (0 : ℚ) < 2 ^ (max (Int.log 2 |x|) (-1022) - 52) := by positivity
    have := roundHalfEven_nonneg (x / 2 ^ (max (Int.log 2 |x|) (-1022) - 52)) (by positivity)
    have : (0 : ℚ) ≤ roundHalfEven (x / 2 ^ (max (Int.log 2 |x|) (-1022) - 52)) := by
      exact_mod_cast this
    positivity

theorem roundDouble_error (x : ℚ) (h0 : 0 ≤ x) (h1 : x ≤ 100) :
    |roundDouble x - x| ≤ 1 / 2 ^ 47 := by
  unfold roundDouble
  split_ifs with hx
  · rw [hx]; norm_num
  · simp only
    have hpos : 0 < x := lt_of_le_of_ne h0 (Ne.symm hx)
    have habs : |x| = x := abs_of_nonneg h0
    rw [habs]
    have hlog : Int.log 2 x < 7 :=
      (Int.lt_zpow_iff_log_lt (by norm_num) hpos).mp (by norm_num; linarith)
    have he : max (Int.log 2 x) (-1022) - 52 ≤ -46 := by
      have : max (Int.log 2 x) (-1022) ≤ 6 := max_le (by omega) (by norm_num)
      omega
    generalize max (Int.log 2 x) (-1022) - 52 = k at he
    have hq : (0 : ℚ) < 2 ^ k := by positivity
    have hqle : (2 : ℚ) ^ k ≤ 2 ^ (-46 : ℤ) := zpow_le_zpow_right₀ (by norm_num) he
    have hr := roundHalfEven_abs_sub_le (x / 2 ^ k)
    have hx' : x = x / 2 ^ k * 2 ^ k := by field_simp
    have : (roundHalfEven (x / 2 ^ k) : ℚ) * 2 ^ k - x
        = ((roundHalfEven (x / 2 ^ k) : ℚ) - x / 2 ^ k) * 2 ^ k := by
      rw [sub_mul, ← hx']
    rw [this, abs_mul, abs_of_pos hq]
    calc |(roundHalfEven (x / 2 ^ k) : ℚ) - x / 2 ^ k| * 2 ^ k
        ≤ 1 / 2 * 2 ^ (-46 : ℤ) := mul_le_mul hr hqle hq.le (by norm_num)
      _ = 1 / 2 ^ 47 := by norm_num

theorem roundDouble_eq (x : ℚ) (e M : ℤ) (h0 : 0 < x) (h1 : (2 : ℚ) ^ e ≤ x)
    (h2 : x < 2 ^ (e + 1)) (he : -1022 ≤ e) (hM : |x / 2 ^ (e - 52) - M| < 1 / 2) :
    roundDouble x = M * 2 ^ (e - 52) := by
  unfold roundDouble
  rw [if_neg (ne_of_gt h0)]
  simp only
  rw [abs_of_pos h0, log_two_eq x e h0 h1 h2, max_eq_left he, roundHalfEven_eq _ M hM]

/-- The label of a marker, given the rounded product `p` of score and 100. -/
theorem content_of_product (d : Detection) (p : ℚ) (hp : mulDouble d.score 100 = p)
    (h0 : 0 ≤ p) (h1 : p < 10 ^ 21) :
    TargetBox.content (targetBox d)
      = some (d.class_ ++ " " ++ Nat.repr (⌊p * 10 + 1 / 2⌋₊ / 10) ++ "."
          ++ Nat.repr (⌊p * 10 + 1 / 2⌋₊ % 10) ++ "%") := by
  have hpow : p * 10 ^ 1 + 1 / 2 = p * 10 + 1 / 2 := by norm_num
  simp only [TargetBox.content, targetBox, hp, toFixed_one _ h0 h1, Option.map_some', hpow]
  generalize ⌊p * 10 + 1 / 2⌋₊ = n
  have hd : Nat.repr (n % 10) = String.mk [Nat.digitChar (n % 10)] := by
    have hlt : n % 10 / 10 = 0 := by omega
    simp only [Nat.repr, List.asString, toDigits_ten (n % 10), hlt, if_true]
    rw [Nat.mod_mod]
  rw [hd]
  simp only [Nat.repr, List.asString]
  congr 1
  simp only [String.append_assoc]
  congr 1
  apply String.ext
  simp

/-- The label when the rounded product is known and ten times it rounds to `n`. -/
theorem content_of_tenths (d : Detection) (p : ℚ) (n : ℕ) (hp : mulDouble d.score 100 = p)
    (h0 : 0 ≤ p) (h1 : p < 10 ^ 21) (hn : ⌊p * 10 + 1 / 2⌋₊ = n) :
    TargetBox.content (targetBox d)
      = some (d.class_ ++ " " ++ Nat.repr (n / 10) ++ "." ++ Nat.repr (n % 10) ++ "%") := by
  rw [content_of_product d p hp h0 h1, hn]

/-! ## The claims -/

/-- Claim C2 (the code at the failing input): `normalizePredictions` is a no-op
when the source size is absent, and also on an empty list, but with a source
size, a non-empty list and no rendered element attached to the ref it throws a
`TypeError` instead of returning the list. -/
theorem normalizePredictions_unattached_throws :
    (∀ (imageRef : Ref) (ps : List Detection),
        normalizePredictions imageRef (some ps) none = .ok ps)
    ∧ (∀ (imageRef : Ref) (sz : Size), normalizePredictions imageRef (some []) (some sz) = .ok [])
    ∧ normalizePredictions ⟨none⟩ (some [⟨⟨100, 100, 50, 50⟩, "cat", 9 / 10⟩]) (some ⟨800, 600⟩)
        = .error .typeError :=
  ⟨fun _ _ => rfl, fun _ _ => rfl, rfl⟩

/-- Claim C10: with source size and rendered element present, the result has the
length of the input and, position by position, the same `class` and `score`; only
`bbox` is replaced.  (The function is pure: `map` and the object spread build new
values, so the input is untouched.) -/
theorem normalizePredictions_frame (ps : List Detection) (r s : Size) :
    ∃ out, normalizePredictions ⟨some r⟩ (some ps) (some s) = .ok out
      ∧ out.length = ps.length
      ∧ ∀ (i : ℕ) (p : Detection), ps[i]? = some p →
          ∃ q, out[i]? = some q ∧ q.class_ = p.class_ ∧ q.score = p.score := by
  refine ⟨ps.map fun p => { p with bbox := scaleBBox r s p.bbox },
    by simp only [normalizePredictions, mapM_normalizeOne_attached], by simp, ?_⟩
  intro i p hp
  exact ⟨{ p with bbox := scaleBBox r s p.bbox },
    by simp only [List.getElem?_map, hp, Option.map_some'], rfl, rfl⟩

/-- Claim C4: if the model loads and `detect` returns the empty list, then
`detectObjectsOnImage` completes, the stored detections and labels are empty, no
marker is rendered and the "Detected Objects" label is not rendered. -/
theorem no_detections_renders_nothing (cocoSsd : CocoSsd) (model : Model) (imageRef : Ref)
    (imageElement : ImageElement) (imgSize : Size) (s : ViewState) (log : List DetectCall)
    (hl : cocoSsd.loadResult = .ok model)
    (hd : model.detectResult imageElement 6 = .ok []) :
    ∃ s', (detectObjectsOnImage cocoSsd imageRef imageElement (some imgSize) s log).1 = .ok s'
      ∧ s'.predictions = [] ∧ s'.objectNames = []
      ∧ (render s').markers = [] ∧ (render s').objectNamesLabel = none := by
  rw [detectObjectsOnImage_eval cocoSsd imageRef imageElement (some imgSize) s log model [] hl hd]
  refine ⟨setObjectNames [] (setPredictions [] s), rfl, rfl, rfl, ?_, rfl⟩
  simp only [View.markers, render, setObjectNames, setPredictions, isEmptyPredictions]
  cases truthy s.imgData <;> rfl

theorem no_detections_renders_nothing_witness :
    ∃ s', (detectObjectsOnImage (resolved []) ⟨none⟩ ⟨"data:a", 800, 600⟩ (some ⟨800, 600⟩)
        ⟨some "data:a", [⟨⟨1, 2, 3, 4⟩, "cat", 1 / 2⟩], true, ["cat"]⟩ []).1 = .ok s'
      ∧ s'.predictions = [] ∧ s'.objectNames = []
      ∧ (render s').markers = [] ∧ (render s').objectNamesLabel = none :=
  no_detections_renders_nothing (resolved []) ⟨fun _ _ => .ok []⟩ ⟨none⟩ ⟨"data:a", 800, 600⟩
    ⟨800, 600⟩ ⟨some "data:a", [⟨⟨1, 2, 3, 4⟩, "cat", 1 / 2⟩], true, ["cat"]⟩ [] rfl rfl

/-- Claim C6: with an image present and n > 0 stored detections the overlay has
exactly n markers, the i-th built from the i-th detection: left, top, width and
height are entries 0, 1, 2, 3 of its box and the label class is its class; with
no image present there is no marker. -/
theorem markers_follow_predictions (s : ViewState) :
    (truthy s.imgData = true → s.predictions ≠ [] →
      (render s).markers.length = s.predictions.length
      ∧ ∀ (i : ℕ) (p : Detection), s.predictions[i]? = some p →
          ∃ m, (render s).markers[i]? = some m
            ∧ m.x = p.bbox.c0 ∧ m.y = p.bbox.c1 ∧ m.width = p.bbox.c2
            ∧ m.height = p.bbox.c3 ∧ m.classType = p.class_)
    ∧ (truthy s.imgData = false → (render s).markers = []) := by
  constructor
  · intro hi hp
    have hne : isEmptyPredictions s = false := by
      cases h : s.predictions with
      | nil => exact absurd h hp
      | cons a l => simp [isEmptyPredictions, h]
    have hm : (render s).markers = s.predictions.map targetBox := by
      simp [View.markers, render, hi, hne]
    rw [hm]
    refine ⟨by simp, ?_⟩
    intro i p hip
    exact ⟨targetBox p, by simp [List.getElem?_map, hip], rfl, rfl, rfl, rfl, rfl⟩
  · intro hi
    simp [View.markers, render, hi]

theorem markers_follow_predictions_witness :
    (render ⟨some "data:a", [⟨⟨50, 50, 25, 25⟩, "cat", 1 / 2⟩], false, ["cat"]⟩).markers.length = 1
    ∧ (render ⟨none, [⟨⟨50, 50, 25, 25⟩, "cat", 1 / 2⟩], false, ["cat"]⟩).markers = [] :=
  ⟨((markers_follow_predictions
      ⟨some "data:a", [⟨⟨50, 50, 25, 25⟩, "cat", 1 / 2⟩], false, ["cat"]⟩).1
      (by decide) (by simp)).1,
   (markers_follow_predictions ⟨none, [⟨⟨50, 50, 25, 25⟩, "cat", 1 / 2⟩], false, ["cat"]⟩).2
      (by decide)⟩

/-- The spec's example: source 800x600 rendered at 400x300, the box
(100,100,50,50) becomes (50,50,25,25). -/
theorem normalizePredictions_scales_witness :
    normalizePredictions ⟨some ⟨400, 300⟩⟩ (some [⟨⟨100, 100, 50, 50⟩, "cat", 9 / 10⟩])
      (some ⟨800, 600⟩) = .ok [⟨⟨50, 50, 25, 25⟩, "cat", 9 / 10⟩] := by
  have h := (normalizePredictions_scales [⟨⟨100, 100, 50, 50⟩, "cat", 9 / 10⟩]
    ⟨400, 300⟩ ⟨800, 600⟩ (by norm_num) (by norm_num)).1
  rw [h]
  norm_num

/-- Claim C7: once the model is loaded, `detectObjectsOnImage` makes exactly one
detector invocation, `detect(imageElement, 6)`; when that returns `preds`, what it
stores is the normalisation of `preds` and nothing else, so with a rendered
element attached the stored list is `preds` rescaled entry by entry. -/
theorem detectObjectsOnImage_detects_once (cocoSsd : CocoSsd) (model : Model) (imageRef : Ref)
    (imageElement : ImageElement) (imgSize : Size) (s : ViewState) (log : List DetectCall)
    (preds : List Detection)
    (hl : cocoSsd.loadResult = .ok model)
    (hd : model.detectResult imageElement 6 = .ok preds) :
    (detectObjectsOnImage cocoSsd imageRef imageElement (some imgSize) s log).2
        = log ++ [⟨imageElement, 6⟩]
    ∧ (detectObjectsOnImage cocoSsd imageRef imageElement (some imgSize) s log).1
        = (normalizePredictions imageRef (some preds) (some imgSize)).map (fun np =>
            { s with predictions := np, objectNames := preds.map fun p => p.class_ })
    ∧ (∀ r, imageRef.current = some r →
        ∃ s', (detectObjectsOnImage cocoSsd imageRef imageElement (some imgSize) s log).1 = .ok s'
          ∧ normalizePredictions imageRef (some preds) (some imgSize) = .ok s'.predictions
          ∧ s'.predictions = preds.map (fun p => { p with bbox := scaleBBox r imgSize p.bbox }))
    ∧ ∀ s', (detectObjectsOnImage cocoSsd imageRef imageElement (some imgSize) s log).1 = .ok s' →
        s'.predictions.map (fun p => (p.class_, p.score))
          = preds.map (fun p => (p.class_, p.score)) := by
  rw [detectObjectsOnImage_eval cocoSsd imageRef imageElement (some imgSize) s log model preds
    hl hd]
  refine ⟨rfl, ?_, ?_, ?_⟩
  · cases normalizePredictions imageRef (some preds) (some imgSize) <;> rfl
  rotate_left
  · intro s' hs'
    cases hn : normalizePredictions imageRef (some preds) (some imgSize) with
    | error e => rw [hn] at hs'; cases hs'
    | ok np =>
      rw [hn] at hs'
      have : s' = setObjectNames (preds.map fun p => p.class_) (setPredictions np s) :=
        (Except.ok.inj hs').symm
      rw [this]
      exact normalizePredictions_keeps imageRef preds np imgSize hn
  · intro r hr
    have hn : normalizePredictions imageRef (some preds) (some imgSize)
        = .ok (preds.map fun p => { p with bbox := scaleBBox r imgSize p.bbox }) := by
      rcases imageRef with ⟨c⟩
      simp only at hr
      subst hr
      simp only [normalizePredictions, mapM_normalizeOne_attached]
    rw [hn]
    exact ⟨_, rfl, rfl, rfl⟩

theorem detectObjectsOnImage_detects_once_witness :
    (detectObjectsOnImage (resolved [⟨⟨100, 100, 50, 50⟩, "cat", 9 / 10⟩]) ⟨some ⟨400, 300⟩⟩
        ⟨"data:a", 800, 600⟩ (some ⟨800, 600⟩) initialState []).2
      = [⟨⟨"data:a", 800, 600⟩, 6⟩] :=
  (detectObjectsOnImage_detects_once (resolved [⟨⟨100, 100, 50, 50⟩, "cat", 9 / 10⟩])
    ⟨fun _ _ => .ok [⟨⟨100, 100, 50, 50⟩, "cat", 9 / 10⟩]⟩ ⟨some ⟨400, 300⟩⟩
    ⟨"data:a", 800, 600⟩ ⟨800, 600⟩ initialState [] [⟨⟨100, 100, 50, 50⟩, "cat", 9 / 10⟩]
    rfl rfl).1

/-- Claim C8: `selectionStarted` sets `isLoading` to true; a transition that
turns it from true to false is an `inferenceCompleted`; hence after a selection,
along any sequence of events without an `inferenceCompleted` (failed read, image
that never decodes, failed load or inference), `isLoading` is true in every state
reached.  A rejected model load or detection ends `onload` in that rejection, so
`setLoading(false)` is not reached. -/
theorem loading_stuck_without_completion (s : ViewState) (sel : ℕ) (es : List Event)
    (h : ∀ e ∈ es, e.isInferenceCompleted = false) :
    (step s (.selectionStarted sel)).isLoading = true
    ∧ (∀ (s' : ViewState) (e : Event), s'.isLoading = true → (step s' e).isLoading = false →
        e.isInferenceCompleted = true)
    ∧ (∀ k : ℕ, (run (step s (.selectionStarted sel)) (es.take k)).isLoading = true)
    ∧ (∀ (cocoSsd : CocoSsd) (imageRef : Ref) (img : ImageElement) (s' : ViewState)
        (log : List DetectCall) (e : JsError), cocoSsd.loadResult = .error e →
        (onload cocoSsd imageRef img s' log).1 = .error e)
    ∧ (∀ (cocoSsd : CocoSsd) (model : Model) (imageRef : Ref) (img : ImageElement)
        (s' : ViewState) (log : List DetectCall) (e : JsError),
        cocoSsd.loadResult = .ok model → model.detectResult img 6 = .error e →
        (onload cocoSsd imageRef img s' log).1 = .error e) := by
  refine ⟨rfl, ?_, ?_, fun c r i s' l e hl => onload_load_rejected c r i s' l e hl,
    fun c m r i s' l e hl hd => onload_detect_rejected c r i s' l m e hl hd⟩
  · intro s' e hs' hf
    by_contra hne
    have := step_isLoading s' e (by simpa using hne) hs'
    rw [hf] at this
    exact Bool.noConfusion this
  · intro k
    exact run_isLoading (es.take k) _ (fun e he => h e (List.mem_of_mem_take he)) rfl

theorem loading_stuck_without_completion_witness :
    (run (step initialState (.selectionStarted 0))
      ([Event.fileReadCompleted 0 "data:a", .imageDecoded 0, .inferenceFailed 0].take 3)).isLoading
      = true :=
  (loading_stuck_without_completion initialState 0
    [.fileReadCompleted 0 "data:a", .imageDecoded 0, .inferenceFailed 0]
    (by decide)).2.2.1 3

/-- Claim C3 fails as stated, twice over.  `onSelectImage` never calls
`setObjectNames`, so the labels of the previous run survive the start of a
selection; and while selection 1 is still reading its file, the completion of the
earlier selection 0 stores its detections and labels. -/
theorem selection_start_counterexample :
    (step ⟨some "data:a", [⟨⟨50, 50, 25, 25⟩, "cat", 9 / 10⟩], false, ["cat"]⟩
        (.selectionStarted 1)).objectNames = ["cat"]
    ∧ orderly [] [.selectionStarted 0, .fileReadCompleted 0 "data:a", .imageDecoded 0,
        .selectionStarted 1,
        .inferenceCompleted 0 ⟨"data:a", 800, 600⟩ [⟨⟨100, 100, 50, 50⟩, "cat", 9 / 10⟩]
          ⟨800, 600⟩] = true
    ∧ (run initialState [.selectionStarted 0, .fileReadCompleted 0 "data:a", .imageDecoded 0,
        .selectionStarted 1,
        .inferenceCompleted 0 ⟨"data:a", 800, 600⟩ [⟨⟨100, 100, 50, 50⟩, "cat", 9 / 10⟩]
          ⟨800, 600⟩]).predictions ≠ [] := by
  refine ⟨rfl, rfl, ?_⟩
  simp only [run, List.foldl_cons, List.foldl_nil, step_inferenceCompleted]
  have ht : truthy (some "data:a") = true := by decide
  simp only [step, onSelectImage_start, onSelectImage_afterRead, setLoading, setPredictions,
    setImgData, initialState, attachedRef, ht, if_true, normalizePredictions,
    mapM_normalizeOne_attached]
  simp [setObjectNames]

/-- Claim C3 as amended: right after `onSelectImage` starts the detections list
is empty, and it is empty in every state reached from there by events other than
an inference completion. -/
theorem selection_start_resets_predictions (s : ViewState) (sel : ℕ) (es : List Event)
    (h : ∀ e ∈ es, e.isInferenceCompleted = false) :
    (step s (.selectionStarted sel)).predictions = []
    ∧ ∀ k : ℕ, (run (step s (.selectionStarted sel)) (es.take k)).predictions = [] :=
  ⟨rfl, fun k =>
    run_predictions (es.take k) _ (fun e he => h e (List.mem_of_mem_take he)) rfl⟩

theorem selection_start_resets_predictions_witness :
    (run (step ⟨some "data:a", [⟨⟨1, 2, 3, 4⟩, "cat", 1 / 2⟩], false, ["cat"]⟩
        (.selectionStarted 1))
      ([Event.fileReadCompleted 1 "data:b", .imageDecoded 1, .selectionStarted 2].take 3)).predictions
      = [] :=
  (selection_start_resets_predictions ⟨some "data:a", [⟨⟨1, 2, 3, 4⟩, "cat", 1 / 2⟩], false, ["cat"]⟩
    1 [.fileReadCompleted 1 "data:b", .imageDecoded 1, .selectionStarted 2] (by decide)).2 3

/-- Claim C9: no completion is ever discarded.  With an image displayed, any
`inferenceCompleted` stores its own detections and labels and clears
`isLoading`, whichever selection it belongs to; in the interleaving where B is
selected while A is in flight and A's inference completes after B's, the final
state shows B's image with A's detections and labels, and `isLoading` is false. -/
theorem stale_completion_overwrites (s0 : ViewState) (a b : String) (imgA imgB : ImageElement)
    (predsA predsB : List Detection) (layoutA layoutB : Size) (hb : b ≠ "") :
    orderly [] [.selectionStarted 0, .fileReadCompleted 0 a, .imageDecoded 0,
        .selectionStarted 1, .fileReadCompleted 1 b, .imageDecoded 1,
        .inferenceCompleted 1 imgB predsB layoutB,
        .inferenceCompleted 0 imgA predsA layoutA] = true
    ∧ run s0 [.selectionStarted 0, .fileReadCompleted 0 a, .imageDecoded 0,
        .selectionStarted 1, .fileReadCompleted 1 b, .imageDecoded 1,
        .inferenceCompleted 1 imgB predsB layoutB,
        .inferenceCompleted 0 imgA predsA layoutA]
      = { imgData := some b
          predictions := predsA.map fun p =>
            { p with bbox := scaleBBox layoutA ⟨imgA.width, imgA.height⟩ p.bbox }
          isLoading := false
          objectNames := predsA.map fun p => p.class_ }
    ∧ ∀ (s : ViewState) (sel : ℕ) (img : ImageElement) (preds : List Detection) (layout : Size),
        truthy s.imgData = true →
        step s (.inferenceCompleted sel img preds layout)
          = { imgData := s.imgData
              predictions := preds.map fun p =>
                { p with bbox := scaleBBox layout ⟨img.width, img.height⟩ p.bbox }
              isLoading := false
              objectNames := preds.map fun p => p.class_ } := by
  have hstep : ∀ (s : ViewState) (sel : ℕ) (img : ImageElement) (preds : List Detection)
      (layout : Size), truthy s.imgData = true →
      step s (.inferenceCompleted sel img preds layout)
        = { imgData := s.imgData
            predictions := preds.map fun p =>
              { p with bbox := scaleBBox layout ⟨img.width, img.height⟩ p.bbox }
            isLoading := false
            objectNames := preds.map fun p => p.class_ } := by
    intro s sel img preds layout ht
    rw [step_inferenceCompleted]
    simp only [attachedRef, ht, if_true, normalizePredictions, mapM_normalizeOne_attached]
    rfl
  have htb : truthy (some b) = true := by simp [truthy, hb]
  refine ⟨rfl, ?_, hstep⟩
  simp only [run, List.foldl_cons, List.foldl_nil]
  have e6 : step (step (step (step (step (step s0 (.selectionStarted 0))
      (.fileReadCompleted 0 a)) (.imageDecoded 0)) (.selectionStarted 1))
      (.fileReadCompleted 1 b)) (.imageDecoded 1) = ⟨some b, [], true, s0.objectNames⟩ := rfl
  rw [e6, hstep ⟨some b, [], true, s0.objectNames⟩ 1 imgB predsB layoutB htb,
    hstep _ 0 imgA predsA layoutA htb]

theorem stale_completion_overwrites_witness :
    run initialState [.selectionStarted 0, .fileReadCompleted 0 "data:a", .imageDecoded 0,
        .selectionStarted 1, .fileReadCompleted 1 "data:b", .imageDecoded 1,
        .inferenceCompleted 1 ⟨"data:b", 400, 400⟩ [] ⟨400, 300⟩,
        .inferenceCompleted 0 ⟨"data:a", 800, 600⟩ [⟨⟨100, 100, 50, 50⟩, "cat", 9 / 10⟩]
          ⟨400, 300⟩]
      = { imgData := some "data:b"
          predictions := [⟨⟨50, 50, 25, 25⟩, "cat", 9 / 10⟩]
          isLoading := false
          objectNames := ["cat"] } := by
  have h := (stale_completion_overwrites initialState "data:a" "data:b" ⟨"data:a", 800, 600⟩
    ⟨"data:b", 400, 400⟩ [⟨⟨100, 100, 50, 50⟩, "cat", 9 / 10⟩] [] ⟨400, 300⟩ ⟨400, 300⟩
    (by decide)).2.1
  rw [h]
  norm_num [scaleBBox]

/-- Claim C5 fails as stated: line 204 multiplies doubles.  For the score that
is the double written `0.5715` the product rounds to the double just below
57.15 and the label reads "57.1", whereas score·100 itself lies above 57.15,
more than 1/20 away from 57.1, and rounds to 57.2. -/
theorem label_double_rounding_counterexample :
    TargetBox.content (targetBox ⟨⟨50, 50, 25, 25⟩, "person", 5147614374084477 / 2 ^ 53⟩)
      = some "person 57.1%"
    ∧ (0 : ℚ) ≤ 5147614374084477 / 2 ^ 53 ∧ (5147614374084477 / 2 ^ 53 : ℚ) ≤ 1
    ∧ (1 : ℚ) / 20 < |571 / 10 - 5147614374084477 / 2 ^ 53 * 100|
    ∧ ⌊(5147614374084477 / 2 ^ 53 : ℚ) * 100 * 10 + 1 / 2⌋₊ = 572 := by
  refine ⟨?_, by norm_num, by norm_num, ?_, ?_⟩
  · have hp : mulDouble (5147614374084477 / 2 ^ 53) 100 = 8043147459506995 / 2 ^ 47 := by
      unfold mulDouble
      rw [roundDouble_eq _ 5 8043147459506995 (by norm_num) (by norm_num) (by norm_num)
        (by norm_num) (by rw [abs_lt]; norm_num)]
      norm_num
    have hn : ⌊(8043147459506995 / 2 ^ 47 : ℚ) * 10 + 1 / 2⌋₊ = 571 := by
      rw [Nat.floor_eq_iff (by norm_num)]
      norm_num
    rw [content_of_tenths ⟨⟨50, 50, 25, 25⟩, "person", 5147614374084477 / 2 ^ 53⟩ _ 571 hp
      (by norm_num) (by norm_num) hn]
    decide
  · rw [lt_abs]
    right
    norm_num
  · rw [Nat.floor_eq_iff (by norm_num)]
    norm_num

/-- Claim C5 as amended: for a score s in [0,1] let p be the double product of s
and 100 (s·100 rounded to binary64, within 2^-47 of s·100).  The label of the
marker is the class, a space, the decimal digits of n / 10, a point, the single
digit n % 10 and a percent sign, where n is p·10 rounded to the nearest integer,
so that n / 10 is within 1/20 of p.  For s = 0.873, as the double so written and
as the exact decimal, the label reads "87.3%" after the class. -/
theorem label_shows_double_product (d : Detection) (h0 : 0 ≤ d.score) (h1 : d.score ≤ 1) :
    (|mulDouble d.score 100 - d.score * 100| ≤ 1 / 2 ^ 47
      ∧ |((⌊mulDouble d.score 100 * 10 + 1 / 2⌋₊ : ℕ) : ℚ) / 10 - mulDouble d.score 100| ≤ 1 / 20
      ∧ ⌊mulDouble d.score 100 * 10 + 1 / 2⌋₊ % 10 < 10
      ∧ TargetBox.content (targetBox d)
          = some (d.class_ ++ " " ++ Nat.repr (⌊mulDouble d.score 100 * 10 + 1 / 2⌋₊ / 10) ++ "."
              ++ Nat.repr (⌊mulDouble d.score 100 * 10 + 1 / 2⌋₊ % 10) ++ "%"))
    ∧ (d.score = 3931642474694443 / 2 ^ 52 →
        TargetBox.content (targetBox d) = some (d.class_ ++ " 87.3%"))
    ∧ (d.score = 873 / 1000 → TargetBox.content (targetBox d) = some (d.class_ ++ " 87.3%")) := by
  have hx0 : (0 : ℚ) ≤ d.score * 100 := by positivity
  have hx1 : d.score * 100 ≤ 100 := by linarith
  have herr : |mulDouble d.score 100 - d.score * 100| ≤ 1 / 2 ^ 47 :=
    roundDouble_error _ hx0 hx1
  have hp0 : 0 ≤ mulDouble d.score 100 := roundDouble_nonneg _ hx0
  have hp1 : mulDouble d.score 100 < 10 ^ 21 := by
    have := (abs_le.mp herr).2
    have h2 : (1 : ℚ) / 2 ^ 47 ≤ 1 := by norm_num
    have h3 : mulDouble d.score 100 ≤ 101 := by linarith
    exact lt_of_le_of_lt h3 (by norm_num)
  have hy0 : (0 : ℚ) ≤ mulDouble d.score 100 * 10 + 1 / 2 := by positivity
  have h873 : ⌊(6143191366710067 / 2 ^ 46 : ℚ) * 10 + 1 / 2⌋₊ = 873 := by
    rw [Nat.floor_eq_iff (by norm_num)]
    norm_num
  have h87 : Nat.repr (873 / 10) = "87" := by decide
  have h3 : Nat.repr (873 % 10) = "3" := by decide
  refine ⟨⟨herr, ?_, Nat.mod_lt _ (by norm_num), content_of_product d _ rfl hp0 hp1⟩, ?_, ?_⟩
  · have hle := Nat.floor_le hy0
    have hlt := Nat.lt_floor_add_one (mulDouble d.score 100 * 10 + 1 / 2)
    rw [abs_le]
    constructor <;> linarith
  · intro hs
    have hp : mulDouble d.score 100 = 6143191366710067 / 2 ^ 46 := by
      rw [hs]
      unfold mulDouble
      rw [roundDouble_eq _ 6 6143191366710067 (by norm_num) (by norm_num) (by norm_num)
        (by norm_num) (by rw [abs_lt]; norm_num)]
      norm_num
    rw [content_of_tenths d _ 873 hp (by norm_num) (by norm_num) h873, h87, h3]
    simp [String.append_assoc]
  · intro hs
    have hp : mulDouble d.score 100 = 6143191366710067 / 2 ^ 46 := by
      rw [hs]
      unfold mulDouble
      rw [roundDouble_eq _ 6 6143191366710067 (by norm_num) (by norm_num) (by norm_num)
        (by norm_num) (by rw [abs_lt]; norm_num)]
      norm_num
    rw [content_of_tenths d _ 873 hp (by norm_num) (by norm_num) h873, h87, h3]
    simp [String.append_assoc]

theorem label_shows_double_product_witness :
    TargetBox.content (targetBox ⟨⟨50, 50, 25, 25⟩, "person", 3931642474694443 / 2 ^ 52⟩)
      = some ("person" ++ " 87.3%") :=
  (label_shows_double_product ⟨⟨50, 50, 25, 25⟩, "person", 3931642474694443 / 2 ^ 52⟩
    (by norm_num) (by norm_num)).2.1 rfl

end ObjectDetector
